import Mathlib

/-!
Shallow embedding of the nearest-point benchmark scripts
`2d-distance-compare.py` and `3d-distance-compare.py`.

Modelling conventions:
* Python float coordinates are modelled as rationals (every float value is a
  rational number); the exact-arithmetic idealisation is standard for these
  scripts, whose properties are stated over real/rational arithmetic.
* `math.sqrt` is modelled as `Real.sqrt` on the rational squared distance,
  so Euclidean distance values live in `ℝ`.
* Python's `float('inf')` initial best distance is modelled by `⊤ : WithTop _`
  and the `None` initial closest point by `none : Option _`.
* `random.uniform` draws are abstracted as an arbitrary coordinate stream
  passed to the generator; Python's `range(n)` over a non-positive `n` is
  empty, which `Int.toNat` reproduces.
-/

/-- A 2D point: a pair of coordinates, as in the tuples of
`2d-distance-compare.py`. -/
abbrev Point2 : Type := ℚ × ℚ

/-- A 3D point: a triple of coordinates, as in the tuples of
`3d-distance-compare.py`. -/
abbrev Point3 : Type := ℚ × ℚ × ℚ

/-- One iteration of the scan loop shared by every strategy: replace the
current best `(closest_point, min_dist)` exactly when the new distance is
strictly smaller (`if dist < min_dist`). -/
def scanStep {P : Type} {A : Type} [LinearOrder A] (val : P → A)
    (st : Option P × WithTop A) (p : P) : Option P × WithTop A :=
  if (val p : WithTop A) < st.2 then (some p, (val p : WithTop A)) else st

/-- The common shape of every strategy loop: fold `scanStep` over the point
list starting from `(None, inf)`. -/
def scanBy {P : Type} {A : Type} [LinearOrder A] (val : P → A)
    (sources : List P) : Option P × WithTop A :=
  sources.foldl (scanStep val) (none, ⊤)

/-- Squared Euclidean distance in 2D, `dx*dx + dy*dy`, exactly as computed in
the loop bodies of `find_closest_with_sqrt` and `find_closest_with_squared`. -/
def sqDist2 (target p : Point2) : ℚ :=
  (p.1 - target.1) * (p.1 - target.1) + (p.2 - target.2) * (p.2 - target.2)

/-- Euclidean distance in 2D: `math.sqrt(dx*dx + dy*dy)`. -/
noncomputable def euclDist2 (target p : Point2) : ℝ :=
  Real.sqrt ((sqDist2 target p : ℚ) : ℝ)

/-- Squared Euclidean distance in 3D, `dx*dx + dy*dy + dz*dz`. -/
def sqDist3 (target p : Point3) : ℚ :=
  (p.1 - target.1) * (p.1 - target.1) + (p.2.1 - target.2.1) * (p.2.1 - target.2.1)
    + (p.2.2 - target.2.2) * (p.2.2 - target.2.2)

/-- Euclidean distance in 3D: `math.sqrt(dx*dx + dy*dy + dz*dz)`. -/
noncomputable def euclDist3 (target p : Point3) : ℝ :=
  Real.sqrt ((sqDist3 target p : ℚ) : ℝ)

/-- Manhattan distance in 3D:
`abs(x - target[0]) + abs(y - target[1]) + abs(z - target[2])`. -/
def manhattanDist3 (target p : Point3) : ℚ :=
  |p.1 - target.1| + |p.2.1 - target.2.1| + |p.2.2 - target.2.2|

/-- `find_closest_with_sqrt` from `2d-distance-compare.py`: linear scan
keeping the point of minimal `math.sqrt(dx*dx + dy*dy)`, updating on strict
`<`, starting from `(None, float('inf'))`. -/
noncomputable def find_closest_with_sqrt (sources : List Point2) (target : Point2) :
    Option Point2 × WithTop ℝ :=
  sources.foldl (fun st p => scanStep (euclDist2 target) st p) (none, ⊤)

/-- `find_closest_with_squared` from `2d-distance-compare.py`: same scan with
`dist_sq = dx*dx + dy*dy` and no square root. -/
def find_closest_with_squared (sources : List Point2) (target : Point2) :
    Option Point2 × WithTop ℚ :=
  sources.foldl (fun st p => scanStep (sqDist2 target) st p) (none, ⊤)

/-- `find_closest_3d_with_sqrt` from `3d-distance-compare.py`. -/
noncomputable def find_closest_3d_with_sqrt (sources : List Point3) (target : Point3) :
    Option Point3 × WithTop ℝ :=
  sources.foldl (fun st p => scanStep (euclDist3 target) st p) (none, ⊤)

/-- `find_closest_3d_with_squared` from `3d-distance-compare.py`. -/
def find_closest_3d_with_squared (sources : List Point3) (target : Point3) :
    Option Point3 × WithTop ℚ :=
  sources.foldl (fun st p => scanStep (sqDist3 target) st p) (none, ⊤)

/-- `find_closest_3d_with_manhattan` from `3d-distance-compare.py`. -/
def find_closest_3d_with_manhattan (sources : List Point3) (target : Point3) :
    Option Point3 × WithTop ℚ :=
  sources.foldl (fun st p => scanStep (manhattanDist3 target) st p) (none, ⊤)

/-- `generate_test_data` from `2d-distance-compare.py`: `num_points` random
points and the fixed target `(500, 500)`. The `random.uniform` draws are
abstracted as the stream `coords`; `range(num_points)` over a non-positive
count is empty, modelled by `Int.toNat`. -/
def generate_test_data (coords : ℕ → Point2) (num_points : ℤ) :
    List Point2 × Point2 :=
  ((List.range num_points.toNat).map coords, ((500 : ℚ), (500 : ℚ)))

/-- `generate_3d_test_data` from `3d-distance-compare.py`, with fixed target
`(500, 500, 500)`. -/
def generate_3d_test_data (coords : ℕ → Point3) (num_points : ℤ) :
    List Point3 × Point3 :=
  ((List.range num_points.toNat).map coords, ((500 : ℚ), (500 : ℚ), (500 : ℚ)))

/-- The `results` sequence accumulated by `benchmark_method` in
`2d-distance-compare.py`: the loop `for _ in range(num_runs)` calls
`method_func(sources, target)` each iteration and appends the result. The
timing side (`time.perf_counter`) is wall-clock I/O and is not modelled. -/
def benchmark_results {P R : Type} (method_func : List P → P → R)
    (sources : List P) (target : P) (num_runs : ℕ) : List R :=
  (List.range num_runs).map (fun _ => method_func sources target)

/-- The `results` sequence accumulated by `benchmark_3d_method` in
`3d-distance-compare.py` (same loop as the 2D harness). -/
def benchmark_3d_results {P R : Type} (method_func : List P → P → R)
    (sources : List P) (target : P) (num_runs : ℕ) : List R :=
  (List.range num_runs).map (fun _ => method_func sources target)

/-- Arithmetic mean, `statistics.mean(times)`. -/
noncomputable def listMean (times : List ℝ) : ℝ := times.sum / times.length

/-- Sample standard deviation, `statistics.stdev(times)`: the square root of
the sum of squared deviations from the mean divided by `n - 1`. -/
noncomputable def sampleStdev (times : List ℝ) : ℝ :=
  Real.sqrt ((times.map (fun t => (t - listMean times) ^ 2)).sum
    / ((times.length : ℝ) - 1))

/-- The `std_dev` field of both benchmark harnesses:
`statistics.stdev(times) if len(times) > 1 else 0`. -/
noncomputable def std_dev_field (times : List ℝ) : ℝ :=
  if 1 < times.length then sampleStdev times else 0

/-- `compare_distance_metrics` from `3d-distance-compare.py`: for
`point1 = (0, 0, 0)` and `point2 = (3, 4, 5)` it computes
`(euclidean, squared_euclidean, manhattan)` from the componentwise deltas. -/
noncomputable def compare_distance_metrics : ℝ × ℚ × ℚ :=
  let point1 : Point3 := (0, 0, 0)
  let point2 : Point3 := (3, 4, 5)
  let dx : ℚ := point2.1 - point1.1
  let dy : ℚ := point2.2.1 - point1.2.1
  let dz : ℚ := point2.2.2 - point1.2.2
  (Real.sqrt ((dx * dx + dy * dy + dz * dz : ℚ) : ℝ),
    dx * dx + dy * dy + dz * dz,
    |dx| + |dy| + |dz|)

/-- Sequential execution of a list of strategies against a shared
`(sources, target)` state. Each strategy body in both scripts only reads
`sources` and `target` (the loop variables and the best-so-far accumulator
are function-locals), so a strategy's effect on the shared state is the
identity: it returns its result and the state unchanged. -/
def run_strategy {P R : Type} (f : List P → P → R) (st : List P × P) :
    R × (List P × P) :=
  (f st.1 st.2, st)

/-- Run a list of strategies in order, threading the shared
`(sources, target)` state through `run_strategy`. -/
def runSeq {P R : Type} : List (List P → P → R) → List P × P → List R × (List P × P)
  | [], st => ([], st)
  | f :: fs, st =>
    let r := run_strategy f st
    let rest := runSeq fs r.2
    (r.1 :: rest.1, rest.2)

section ScanLemmas

variable {P : Type} {A B : Type} [LinearOrder A] [LinearOrder B]

/-- Two scans whose value functions induce the same strict order move in
lockstep once both hold a concrete best point: they end on the same point. -/
lemma lockstep_aux (val₁ : P → A) (val₂ : P → B)
    (h : ∀ p q, val₁ p < val₁ q ↔ val₂ p < val₂ q) (l : List P) :
    ∀ b : P,
      ∃ q, l.foldl (scanStep val₁) (some b, (val₁ b : WithTop A))
            = (some q, (val₁ q : WithTop A)) ∧
        l.foldl (scanStep val₂) (some b, (val₂ b : WithTop B))
            = (some q, (val₂ q : WithTop B)) := by
  induction l with
  | nil => intro b; exact ⟨b, rfl, rfl⟩
  | cons p l ih =>
    intro b
    rw [List.foldl_cons, List.foldl_cons]
    by_cases hc : val₁ p < val₁ b
    · have hc₂ : val₂ p < val₂ b := (h p b).mp hc
      have e₁ : scanStep val₁ (some b, (val₁ b : WithTop A)) p
          = (some p, (val₁ p : WithTop A)) := by
        simp [scanStep, WithTop.coe_lt_coe, hc]
      have e₂ : scanStep val₂ (some b, (val₂ b : WithTop B)) p
          = (some p, (val₂ p : WithTop B)) := by
        simp [scanStep, WithTop.coe_lt_coe, hc₂]
      rw [e₁, e₂]
      exact ih p
    · have hc₂ : ¬ val₂ p < val₂ b := fun hx => hc ((h p b).mpr hx)
      have e₁ : scanStep val₁ (some b, (val₁ b : WithTop A)) p
          = (some b, (val₁ b : WithTop A)) := by
        simp [scanStep, WithTop.coe_lt_coe, hc]
      have e₂ : scanStep val₂ (some b, (val₂ b : WithTop B)) p
          = (some b, (val₂ b : WithTop B)) := by
        simp [scanStep, WithTop.coe_lt_coe, hc₂]
      rw [e₁, e₂]
      exact ih b

/-- On a non-empty list, two scans whose value functions induce the same
strict order return the same closest point, each paired with its own value. -/
lemma scanBy_lockstep (val₁ : P → A) (val₂ : P → B)
    (h : ∀ p q, val₁ p < val₁ q ↔ val₂ p < val₂ q) (l : List P) (hl : l ≠ []) :
    ∃ q, scanBy val₁ l = (some q, (val₁ q : WithTop A)) ∧
      scanBy val₂ l = (some q, (val₂ q : WithTop B)) := by
  cases l with
  | nil => exact absurd rfl hl
  | cons b l =>
    unfold scanBy
    rw [List.foldl_cons, List.foldl_cons]
    have e₁ : scanStep val₁ ((none : Option P), (⊤ : WithTop A)) b
        = (some b, (val₁ b : WithTop A)) := by
      simp [scanStep]
    have e₂ : scanStep val₂ ((none : Option P), (⊤ : WithTop B)) b
        = (some b, (val₂ b : WithTop B)) := by
      simp [scanStep]
    rw [e₁, e₂]
    exact lockstep_aux val₁ val₂ h l b

/-- Strict-less updating from a concrete best `b` ends either on `b` itself
(when nothing beats it) or on the first element of the remaining list that
attains the overall minimum. -/
lemma scan_first_min_aux (val : P → A) (l : List P) :
    ∀ b : P,
      ((∀ q ∈ l, val b ≤ val q) ∧
        l.foldl (scanStep val) (some b, (val b : WithTop A))
          = (some b, (val b : WithTop A)))
      ∨ (∃ l₁ p l₂, l = l₁ ++ p :: l₂ ∧ val p < val b ∧
          (∀ q ∈ l, val p ≤ val q) ∧ (∀ q ∈ l₁, val p < val q) ∧
          l.foldl (scanStep val) (some b, (val b : WithTop A))
            = (some p, (val p : WithTop A))) := by
  induction l with
  | nil => intro b; exact Or.inl ⟨by simp, rfl⟩
  | cons r l ih =>
    intro b
    rw [List.foldl_cons]
    by_cases hc : val r < val b
    · have e : scanStep val (some b, (val b : WithTop A)) r
          = (some r, (val r : WithTop A)) := by
        simp [scanStep, WithTop.coe_lt_coe, hc]
      rw [e]
      rcases ih r with ⟨hmin, hres⟩ | ⟨l₁, p, l₂, hsplit, hlt, hmin, hpre, hres⟩
      · refine Or.inr ⟨[], r, l, rfl, hc, ?_, by simp, hres⟩
        intro q hq
        rcases List.mem_cons.mp hq with rfl | hq'
        · exact le_refl _
        · exact hmin q hq'
      · refine Or.inr ⟨r :: l₁, p, l₂, by rw [hsplit]; rfl, lt_trans hlt hc, ?_, ?_, hres⟩
        · intro q hq
          rcases List.mem_cons.mp hq with rfl | hq'
          · exact le_of_lt hlt
          · exact hmin q hq'
        · intro q hq
          rcases List.mem_cons.mp hq with rfl | hq'
          · exact hlt
          · exact hpre q hq'
    · have e : scanStep val (some b, (val b : WithTop A)) r
          = (some b, (val b : WithTop A)) := by
        simp [scanStep, WithTop.coe_lt_coe, hc]
      rw [e]
      rcases ih b with ⟨hmin, hres⟩ | ⟨l₁, p, l₂, hsplit, hlt, hmin, hpre, hres⟩
      · refine Or.inl ⟨?_, hres⟩
        intro q hq
        rcases List.mem_cons.mp hq with rfl | hq'
        · exact le_of_not_lt hc
        · exact hmin q hq'
      · refine Or.inr ⟨r :: l₁, p, l₂, by rw [hsplit]; rfl, hlt, ?_, ?_, hres⟩
        · intro q hq
          rcases List.mem_cons.mp hq with rfl | hq'
          · exact le_of_lt (lt_of_lt_of_le hlt (le_of_not_lt hc))
          · exact hmin q hq'
        · intro q hq
          rcases List.mem_cons.mp hq with rfl | hq'
          · exact lt_of_lt_of_le hlt (le_of_not_lt hc)
          · exact hpre q hq'

/-- The scan over a non-empty list returns the first point attaining the
minimal value: its value is a lower bound for the whole list, and every
point scanned strictly before it has a strictly larger value. -/
lemma scanBy_first_min (val : P → A) (l : List P) (hl : l ≠ []) :
    ∃ l₁ p l₂, l = l₁ ++ p :: l₂ ∧ (∀ q ∈ l, val p ≤ val q) ∧
      (∀ q ∈ l₁, val p < val q) ∧ scanBy val l = (some p, (val p : WithTop A)) := by
  cases l with
  | nil => exact absurd rfl hl
  | cons b l =>
    unfold scanBy
    rw [List.foldl_cons]
    have e : scanStep val ((none : Option P), (⊤ : WithTop A)) b
        = (some b, (val b : WithTop A)) := by
      simp [scanStep]
    rw [e]
    rcases scan_first_min_aux val l b with ⟨hmin, hres⟩ | ⟨l₁, p, l₂, hsplit, hlt, hmin, hpre, hres⟩
    · refine ⟨[], b, l, rfl, ?_, by simp, hres⟩
      intro q hq
      rcases List.mem_cons.mp hq with rfl | hq'
      · exact le_refl _
      · exact hmin q hq'
    · refine ⟨b :: l₁, p, l₂, by rw [hsplit]; rfl, ?_, ?_, hres⟩
      · intro q hq
        rcases List.mem_cons.mp hq with rfl | hq'
        · exact le_of_lt hlt
        · exact hmin q hq'
      · intro q hq
        rcases List.mem_cons.mp hq with rfl | hq'
        · exact hlt
        · exact hpre q hq'

/-- The scan over a singleton returns that point with its value. -/
lemma scanBy_singleton (val : P → A) (p : P) :
    scanBy val [p] = (some p, (val p : WithTop A)) := by
  unfold scanBy
  rw [List.foldl_cons, List.foldl_nil]
  simp [scanStep]

/-- When the list contains a point of value `0`, the minimum value `0` is
attained, and if only that point attains it, the scan returns it. -/
lemma scanBy_zero_at_mem [Zero A] (val : P → A) (s : List P) (t : P)
    (ht : t ∈ s) (hnn : ∀ q, (0 : A) ≤ val q) (ht0 : val t = 0)
    (hdef : ∀ p, val p = 0 → p = t) :
    scanBy val s = (some t, ((0 : A) : WithTop A)) := by
  obtain ⟨l₁, p, l₂, hsplit, hmin, hpre, hres⟩ :=
    scanBy_first_min val s (List.ne_nil_of_mem ht)
  have h0 : val p = 0 := le_antisymm (ht0 ▸ hmin t ht) (hnn p)
  have hpt : p = t := hdef p h0
  rw [hpt] at h0
  rw [hres, hpt, h0]

end ScanLemmas

/-- `find_closest_with_sqrt` is the generic scan with value `euclDist2`. -/
lemma find_closest_with_sqrt_eq (s : List Point2) (t : Point2) :
    find_closest_with_sqrt s t = scanBy (euclDist2 t) s := rfl

/-- `find_closest_with_squared` is the generic scan with value `sqDist2`. -/
lemma find_closest_with_squared_eq (s : List Point2) (t : Point2) :
    find_closest_with_squared s t = scanBy (sqDist2 t) s := rfl

/-- `find_closest_3d_with_sqrt` is the generic scan with value `euclDist3`. -/
lemma find_closest_3d_with_sqrt_eq (s : List Point3) (t : Point3) :
    find_closest_3d_with_sqrt s t = scanBy (euclDist3 t) s := rfl

/-- `find_closest_3d_with_squared` is the generic scan with value `sqDist3`. -/
lemma find_closest_3d_with_squared_eq (s : List Point3) (t : Point3) :
    find_closest_3d_with_squared s t = scanBy (sqDist3 t) s := rfl

/-- `find_closest_3d_with_manhattan` is the generic scan with
value `manhattanDist3`. -/
lemma find_closest_3d_with_manhattan_eq (s : List Point3) (t : Point3) :
    find_closest_3d_with_manhattan s t = scanBy (manhattanDist3 t) s := rfl

/-- Squared 2D distances are non-negative. -/
lemma sqDist2_nonneg (t p : Point2) : 0 ≤ sqDist2 t p :=
  add_nonneg (mul_self_nonneg _) (mul_self_nonneg _)

/-- Squared 3D distances are non-negative. -/
lemma sqDist3_nonneg (t p : Point3) : 0 ≤ sqDist3 t p :=
  add_nonneg (add_nonneg (mul_self_nonneg _) (mul_self_nonneg _)) (mul_self_nonneg _)

/-- Manhattan 3D distances are non-negative. -/
lemma manhattanDist3_nonneg (t p : Point3) : 0 ≤ manhattanDist3 t p :=
  add_nonneg (add_nonneg (abs_nonneg _) (abs_nonneg _)) (abs_nonneg _)

/-- The 2D distance to oneself is zero under the squared metric. -/
lemma sqDist2_self (t : Point2) : sqDist2 t t = 0 := by
  simp [sqDist2]

/-- The 3D distance to oneself is zero under the squared metric. -/
lemma sqDist3_self (t : Point3) : sqDist3 t t = 0 := by
  simp [sqDist3]

/-- The 3D distance to oneself is zero under the Manhattan metric. -/
lemma manhattanDist3_self (t : Point3) : manhattanDist3 t t = 0 := by
  simp [manhattanDist3]

/-- Euclidean 2D distance to oneself is zero. -/
lemma euclDist2_self (t : Point2) : euclDist2 t t = 0 := by
  rw [euclDist2, sqDist2_self]
  simp

/-- Euclidean 3D distance to oneself is zero. -/
lemma euclDist3_self (t : Point3) : euclDist3 t t = 0 := by
  rw [euclDist3, sqDist3_self]
  simp

/-- Squaring is strictly monotone on distances: the 2D Euclidean and squared
metrics order any two points the same way. -/
lemma euclDist2_lt_iff (t p q : Point2) :
    euclDist2 t p < euclDist2 t q ↔ sqDist2 t p < sqDist2 t q := by
  rw [euclDist2, euclDist2,
    Real.sqrt_lt_sqrt_iff (by exact_mod_cast sqDist2_nonneg t p)]
  exact_mod_cast Iff.rfl

/-- Squaring is strictly monotone on distances: the 3D Euclidean and squared
metrics order any two points the same way. -/
lemma euclDist3_lt_iff (t p q : Point3) :
    euclDist3 t p < euclDist3 t q ↔ sqDist3 t p < sqDist3 t q := by
  rw [euclDist3, euclDist3,
    Real.sqrt_lt_sqrt_iff (by exact_mod_cast sqDist3_nonneg t p)]
  exact_mod_cast Iff.rfl

/-- Definiteness of the squared 2D metric: distance zero forces equality. -/
lemma sqDist2_eq_zero (t p : Point2) (h : sqDist2 t p = 0) : p = t := by
  rw [sqDist2] at h
  have ha : (p.1 - t.1) * (p.1 - t.1) = 0 :=
    le_antisymm (by nlinarith [mul_self_nonneg (p.2 - t.2)]) (mul_self_nonneg _)
  have hb : (p.2 - t.2) * (p.2 - t.2) = 0 :=
    le_antisymm (by nlinarith [mul_self_nonneg (p.1 - t.1)]) (mul_self_nonneg _)
  have h1 : p.1 = t.1 := sub_eq_zero.mp (mul_self_eq_zero.mp ha)
  have h2 : p.2 = t.2 := sub_eq_zero.mp (mul_self_eq_zero.mp hb)
  exact Prod.ext h1 h2

/-- Definiteness of the squared 3D metric: distance zero forces equality. -/
lemma sqDist3_eq_zero (t p : Point3) (h : sqDist3 t p = 0) : p = t := by
  rw [sqDist3] at h
  have ha : (p.1 - t.1) * (p.1 - t.1) = 0 :=
    le_antisymm
      (by nlinarith [mul_self_nonneg (p.2.1 - t.2.1), mul_self_nonneg (p.2.2 - t.2.2)])
      (mul_self_nonneg _)
  have hb : (p.2.1 - t.2.1) * (p.2.1 - t.2.1) = 0 :=
    le_antisymm
      (by nlinarith [mul_self_nonneg (p.1 - t.1), mul_self_nonneg (p.2.2 - t.2.2)])
      (mul_self_nonneg _)
  have hc : (p.2.2 - t.2.2) * (p.2.2 - t.2.2) = 0 :=
    le_antisymm
      (by nlinarith [mul_self_nonneg (p.1 - t.1), mul_self_nonneg (p.2.1 - t.2.1)])
      (mul_self_nonneg _)
  have h1 : p.1 = t.1 := sub_eq_zero.mp (mul_self_eq_zero.mp ha)
  have h2 : p.2.1 = t.2.1 := sub_eq_zero.mp (mul_self_eq_zero.mp hb)
  have h3 : p.2.2 = t.2.2 := sub_eq_zero.mp (mul_self_eq_zero.mp hc)
  exact Prod.ext h1 (Prod.ext h2 h3)

/-- Definiteness of the Manhattan 3D metric: distance zero forces equality. -/
lemma manhattanDist3_eq_zero (t p : Point3) (h : manhattanDist3 t p = 0) : p = t := by
  rw [manhattanDist3] at h
  have ha : |p.1 - t.1| = 0 :=
    le_antisymm (by nlinarith [abs_nonneg (p.2.1 - t.2.1), abs_nonneg (p.2.2 - t.2.2)])
      (abs_nonneg _)
  have hb : |p.2.1 - t.2.1| = 0 :=
    le_antisymm (by nlinarith [abs_nonneg (p.1 - t.1), abs_nonneg (p.2.2 - t.2.2)])
      (abs_nonneg _)
  have hc : |p.2.2 - t.2.2| = 0 :=
    le_antisymm (by nlinarith [abs_nonneg (p.1 - t.1), abs_nonneg (p.2.1 - t.2.1)])
      (abs_nonneg _)
  have h1 : p.1 = t.1 := sub_eq_zero.mp (abs_eq_zero.mp ha)
  have h2 : p.2.1 = t.2.1 := sub_eq_zero.mp (abs_eq_zero.mp hb)
  have h3 : p.2.2 = t.2.2 := sub_eq_zero.mp (abs_eq_zero.mp hc)
  exact Prod.ext h1 (Prod.ext h2 h3)

/-- Definiteness of the Euclidean 2D metric: distance zero forces equality. -/
lemma euclDist2_eq_zero (t p : Point2) (h : euclDist2 t p = 0) : p = t := by
  rw [euclDist2, Real.sqrt_eq_zero'] at h
  refine sqDist2_eq_zero t p (le_antisymm ?_ (sqDist2_nonneg t p))
  exact_mod_cast h

/-- Definiteness of the Euclidean 3D metric: distance zero forces equality. -/
lemma euclDist3_eq_zero (t p : Point3) (h : euclDist3 t p = 0) : p = t := by
  rw [euclDist3, Real.sqrt_eq_zero'] at h
  refine sqDist3_eq_zero t p (le_antisymm ?_ (sqDist3_nonneg t p))
  exact_mod_cast h

/-- The scan result `result` on `sources` is the earliest point of minimal
value: `sources` splits as `l₁ ++ p :: l₂` where `p` is the returned closest
point with its value, `p` minimises `val` over the whole list, and every
point of the prefix `l₁` (scanned before `p`) has a strictly larger value. -/
def returnsFirstMin {P A : Type} [LinearOrder A] (val : P → A)
    (result : Option P × WithTop A) (sources : List P) : Prop :=
  ∃ l₁ p l₂, sources = l₁ ++ p :: l₂ ∧ result = (some p, (val p : WithTop A)) ∧
    (∀ q ∈ sources, val p ≤ val q) ∧ ∀ q ∈ l₁, val p < val q

/-- The scan over a non-empty list returns the earliest point of minimal
value together with that value. -/
lemma scanBy_returnsFirstMin {P A : Type} [LinearOrder A] (val : P → A)
    (l : List P) (hl : l ≠ []) : returnsFirstMin val (scanBy val l) l := by
  obtain ⟨l₁, p, l₂, hsplit, hmin, hpre, hres⟩ := scanBy_first_min val l hl
  exact ⟨l₁, p, l₂, hsplit, hres, hmin, hpre⟩

/-- C1: for every non-empty point set and target, the Euclidean-sqrt strategy
and the Euclidean-squared strategy return the identical closest point, in
both the 2D and the 3D variants (argmin invariance under the monotonic
square/sqrt transform). -/
theorem euclidean_strategies_same_argmin (s₂ : List Point2) (t₂ : Point2)
    (s₃ : List Point3) (t₃ : Point3) (h₂ : s₂ ≠ []) (h₃ : s₃ ≠ []) :
    (find_closest_with_sqrt s₂ t₂).1 = (find_closest_with_squared s₂ t₂).1 ∧
      (find_closest_3d_with_sqrt s₃ t₃).1 = (find_closest_3d_with_squared s₃ t₃).1 := by
  constructor
  · obtain ⟨q, hq₁, hq₂⟩ :=
      scanBy_lockstep (euclDist2 t₂) (sqDist2 t₂) (euclDist2_lt_iff t₂) s₂ h₂
    rw [find_closest_with_sqrt_eq, find_closest_with_squared_eq, hq₁, hq₂]
  · obtain ⟨q, hq₁, hq₂⟩ :=
      scanBy_lockstep (euclDist3 t₃) (sqDist3 t₃) (euclDist3_lt_iff t₃) s₃ h₃
    rw [find_closest_3d_with_sqrt_eq, find_closest_3d_with_squared_eq, hq₁, hq₂]

/-- Witness for C1 at concrete one-point sets. -/
theorem euclidean_strategies_same_argmin_witness :
    (find_closest_with_sqrt [((1 : ℚ), (2 : ℚ))] ((0 : ℚ), (0 : ℚ))).1
        = (find_closest_with_squared [((1 : ℚ), (2 : ℚ))] ((0 : ℚ), (0 : ℚ))).1 ∧
      (find_closest_3d_with_sqrt [((1 : ℚ), (2 : ℚ), (3 : ℚ))]
            ((0 : ℚ), (0 : ℚ), (0 : ℚ))).1
        = (find_closest_3d_with_squared [((1 : ℚ), (2 : ℚ), (3 : ℚ))]
            ((0 : ℚ), (0 : ℚ), (0 : ℚ))).1 :=
  euclidean_strategies_same_argmin _ _ _ _ (List.cons_ne_nil _ _) (List.cons_ne_nil _ _)

/-- C2: every strategy scans the list once updating its best only on strict
less-than, so the returned point is the earliest point of minimal distance in
scan order (every point scanned before it has strictly larger distance). -/
theorem strategies_return_first_min (s₂ : List Point2) (t₂ : Point2)
    (s₃ : List Point3) (t₃ : Point3) (h₂ : s₂ ≠ []) (h₃ : s₃ ≠ []) :
    returnsFirstMin (euclDist2 t₂) (find_closest_with_sqrt s₂ t₂) s₂ ∧
    returnsFirstMin (sqDist2 t₂) (find_closest_with_squared s₂ t₂) s₂ ∧
    returnsFirstMin (euclDist3 t₃) (find_closest_3d_with_sqrt s₃ t₃) s₃ ∧
    returnsFirstMin (sqDist3 t₃) (find_closest_3d_with_squared s₃ t₃) s₃ ∧
    returnsFirstMin (manhattanDist3 t₃) (find_closest_3d_with_manhattan s₃ t₃) s₃ :=
  ⟨scanBy_returnsFirstMin _ s₂ h₂, scanBy_returnsFirstMin _ s₂ h₂,
    scanBy_returnsFirstMin _ s₃ h₃, scanBy_returnsFirstMin _ s₃ h₃,
    scanBy_returnsFirstMin _ s₃ h₃⟩

/-- Witness for C2 at concrete one-point sets. -/
theorem strategies_return_first_min_witness :
    returnsFirstMin (euclDist2 ((0 : ℚ), (0 : ℚ)))
        (find_closest_with_sqrt [((1 : ℚ), (2 : ℚ))] ((0 : ℚ), (0 : ℚ)))
        [((1 : ℚ), (2 : ℚ))] ∧
    returnsFirstMin (sqDist2 ((0 : ℚ), (0 : ℚ)))
        (find_closest_with_squared [((1 : ℚ), (2 : ℚ))] ((0 : ℚ), (0 : ℚ)))
        [((1 : ℚ), (2 : ℚ))] ∧
    returnsFirstMin (euclDist3 ((0 : ℚ), (0 : ℚ), (0 : ℚ)))
        (find_closest_3d_with_sqrt [((1 : ℚ), (2 : ℚ), (3 : ℚ))]
          ((0 : ℚ), (0 : ℚ), (0 : ℚ)))
        [((1 : ℚ), (2 : ℚ), (3 : ℚ))] ∧
    returnsFirstMin (sqDist3 ((0 : ℚ), (0 : ℚ), (0 : ℚ)))
        (find_closest_3d_with_squared [((1 : ℚ), (2 : ℚ), (3 : ℚ))]
          ((0 : ℚ), (0 : ℚ), (0 : ℚ)))
        [((1 : ℚ), (2 : ℚ), (3 : ℚ))] ∧
    returnsFirstMin (manhattanDist3 ((0 : ℚ), (0 : ℚ), (0 : ℚ)))
        (find_closest_3d_with_manhattan [((1 : ℚ), (2 : ℚ), (3 : ℚ))]
          ((0 : ℚ), (0 : ℚ), (0 : ℚ)))
        [((1 : ℚ), (2 : ℚ), (3 : ℚ))] :=
  strategies_return_first_min _ _ _ _ (List.cons_ne_nil _ _) (List.cons_ne_nil _ _)

/-- C3: for every non-empty point set and target, the value returned by the
Euclidean-sqrt strategy is exactly the square root of the value returned by
the Euclidean-squared strategy (exact in the real-arithmetic model, hence
within floating-point tolerance), in both the 2D and 3D variants. -/
theorem sqrt_value_is_sqrt_of_squared_value (s₂ : List Point2) (t₂ : Point2)
    (s₃ : List Point3) (t₃ : Point3) (h₂ : s₂ ≠ []) (h₃ : s₃ ≠ []) :
    (∃ v : ℚ, (find_closest_with_squared s₂ t₂).2 = (v : WithTop ℚ) ∧
      (find_closest_with_sqrt s₂ t₂).2 = ((Real.sqrt (v : ℝ) : ℝ) : WithTop ℝ)) ∧
    (∃ v : ℚ, (find_closest_3d_with_squared s₃ t₃).2 = (v : WithTop ℚ) ∧
      (find_closest_3d_with_sqrt s₃ t₃).2 = ((Real.sqrt (v : ℝ) : ℝ) : WithTop ℝ)) := by
  constructor
  · obtain ⟨q, hq₁, hq₂⟩ :=
      scanBy_lockstep (euclDist2 t₂) (sqDist2 t₂) (euclDist2_lt_iff t₂) s₂ h₂
    refine ⟨sqDist2 t₂ q, ?_, ?_⟩
    · rw [find_closest_with_squared_eq, hq₂]
    · rw [find_closest_with_sqrt_eq, hq₁]
      rfl
  · obtain ⟨q, hq₁, hq₂⟩ :=
      scanBy_lockstep (euclDist3 t₃) (sqDist3 t₃) (euclDist3_lt_iff t₃) s₃ h₃
    refine ⟨sqDist3 t₃ q, ?_, ?_⟩
    · rw [find_closest_3d_with_squared_eq, hq₂]
    · rw [find_closest_3d_with_sqrt_eq, hq₁]
      rfl

/-- Witness for C3 at concrete one-point sets. -/
theorem sqrt_value_is_sqrt_of_squared_value_witness :
    (∃ v : ℚ, (find_closest_with_squared [((1 : ℚ), (2 : ℚ))] ((0 : ℚ), (0 : ℚ))).2
          = (v : WithTop ℚ) ∧
        (find_closest_with_sqrt [((1 : ℚ), (2 : ℚ))] ((0 : ℚ), (0 : ℚ))).2
          = ((Real.sqrt (v : ℝ) : ℝ) : WithTop ℝ)) ∧
    (∃ v : ℚ, (find_closest_3d_with_squared [((1 : ℚ), (2 : ℚ), (3 : ℚ))]
            ((0 : ℚ), (0 : ℚ), (0 : ℚ))).2 = (v : WithTop ℚ) ∧
        (find_closest_3d_with_sqrt [((1 : ℚ), (2 : ℚ), (3 : ℚ))]
            ((0 : ℚ), (0 : ℚ), (0 : ℚ))).2
          = ((Real.sqrt (v : ℝ) : ℝ) : WithTop ℝ)) :=
  sqrt_value_is_sqrt_of_squared_value _ _ _ _ (List.cons_ne_nil _ _) (List.cons_ne_nil _ _)

/-- C4: for the pair (0,0,0) and (3,4,5), the metric comparison example
computes Manhattan distance 12, squared-Euclidean distance 50, and Euclidean
distance √50, which lies strictly between 7.071 and 7.0711 (so it prints as
approximately 7.0711). -/
theorem compare_distance_metrics_values :
    compare_distance_metrics.2.2 = 12 ∧
    compare_distance_metrics.2.1 = 50 ∧
    compare_distance_metrics.1 = Real.sqrt 50 ∧
    (7.071 : ℝ) < compare_distance_metrics.1 ∧
    compare_distance_metrics.1 < (7.0711 : ℝ) := by
  have h50 : compare_distance_metrics.1 = Real.sqrt 50 := by
    simp only [compare_distance_metrics]
    norm_num
  refine ⟨?_, ?_, h50, ?_, ?_⟩
  · simp only [compare_distance_metrics]
    norm_num
  · simp only [compare_distance_metrics]
    norm_num
  · rw [h50, Real.lt_sqrt (by norm_num)]
    norm_num
  · rw [h50, Real.sqrt_lt' (by norm_num)]
    norm_num

/-- C5: executing a strategy `num_runs ≥ 1` times on the same inputs, as both
benchmark harnesses do, yields a constant result sequence: `num_runs` copies
of the one deterministic result of the pure scan. -/
theorem benchmark_results_deterministic {P Res : Type} (method_func : List P → P → Res)
    (sources : List P) (target : P) (num_runs : ℕ) (h : 1 ≤ num_runs) :
    benchmark_results method_func sources target num_runs
        = List.replicate num_runs (method_func sources target) ∧
      benchmark_3d_results method_func sources target num_runs
        = List.replicate num_runs (method_func sources target) := by
  constructor <;>
    simp [benchmark_results, benchmark_3d_results]

/-- Witness for C5: three repetitions of the squared strategy on a concrete
one-point set give three identical results. -/
theorem benchmark_results_deterministic_witness :
    benchmark_results find_closest_with_squared [((1 : ℚ), (2 : ℚ))]
        ((0 : ℚ), (0 : ℚ)) 3
      = List.replicate 3
          (find_closest_with_squared [((1 : ℚ), (2 : ℚ))] ((0 : ℚ), (0 : ℚ))) ∧
    benchmark_3d_results find_closest_3d_with_manhattan [((1 : ℚ), (2 : ℚ), (3 : ℚ))]
        ((0 : ℚ), (0 : ℚ), (0 : ℚ)) 3
      = List.replicate 3
          (find_closest_3d_with_manhattan [((1 : ℚ), (2 : ℚ), (3 : ℚ))]
            ((0 : ℚ), (0 : ℚ), (0 : ℚ))) :=
  ⟨(benchmark_results_deterministic find_closest_with_squared _ _ 3 (by norm_num)).1,
    (benchmark_results_deterministic find_closest_3d_with_manhattan _ _ 3 (by norm_num)).2⟩

/-- C6: with a single timing sample the reported `std_dev` field is `0`
(the guard avoids calling `statistics.stdev`, so no error is raised), and
with more than one sample it is the sample standard deviation. -/
theorem std_dev_field_single_sample (times : List ℝ) :
    (times.length = 1 → std_dev_field times = 0) ∧
      (1 < times.length → std_dev_field times = sampleStdev times) := by
  constructor
  · intro h
    unfold std_dev_field
    rw [if_neg (by omega)]
  · intro h
    unfold std_dev_field
    rw [if_pos h]

/-- Witness for C6 at concrete sample lists. -/
theorem std_dev_field_single_sample_witness :
    std_dev_field [(3 : ℝ)] = 0 ∧
      std_dev_field [(1 : ℝ), 2] = sampleStdev [(1 : ℝ), 2] :=
  ⟨(std_dev_field_single_sample [(3 : ℝ)]).1 (by simp),
    (std_dev_field_single_sample [(1 : ℝ), 2]).2 (by simp)⟩

/-- C7: on a one-point set every strategy returns that point together with
that metric's distance between the point and the target. -/
theorem singleton_set_closest (p₂ t₂ : Point2) (p₃ t₃ : Point3) :
    find_closest_with_sqrt [p₂] t₂ = (some p₂, ((euclDist2 t₂ p₂ : ℝ) : WithTop ℝ)) ∧
    find_closest_with_squared [p₂] t₂ = (some p₂, ((sqDist2 t₂ p₂ : ℚ) : WithTop ℚ)) ∧
    find_closest_3d_with_sqrt [p₃] t₃ = (some p₃, ((euclDist3 t₃ p₃ : ℝ) : WithTop ℝ)) ∧
    find_closest_3d_with_squared [p₃] t₃ = (some p₃, ((sqDist3 t₃ p₃ : ℚ) : WithTop ℚ)) ∧
    find_closest_3d_with_manhattan [p₃] t₃
      = (some p₃, ((manhattanDist3 t₃ p₃ : ℚ) : WithTop ℚ)) :=
  ⟨scanBy_singleton _ _, scanBy_singleton _ _, scanBy_singleton _ _,
    scanBy_singleton _ _, scanBy_singleton _ _⟩

/-- C8: whenever the point set contains a point equal to the target, every
strategy returns that point as closest with returned distance value 0, under
every metric. -/
theorem target_in_set_zero_distance (s₂ : List Point2) (t₂ : Point2)
    (s₃ : List Point3) (t₃ : Point3) (h₂ : t₂ ∈ s₂) (h₃ : t₃ ∈ s₃) :
    find_closest_with_sqrt s₂ t₂ = (some t₂, ((0 : ℝ) : WithTop ℝ)) ∧
    find_closest_with_squared s₂ t₂ = (some t₂, ((0 : ℚ) : WithTop ℚ)) ∧
    find_closest_3d_with_sqrt s₃ t₃ = (some t₃, ((0 : ℝ) : WithTop ℝ)) ∧
    find_closest_3d_with_squared s₃ t₃ = (some t₃, ((0 : ℚ) : WithTop ℚ)) ∧
    find_closest_3d_with_manhattan s₃ t₃ = (some t₃, ((0 : ℚ) : WithTop ℚ)) := by
  refine ⟨?_, ?_, ?_, ?_, ?_⟩
  · rw [find_closest_with_sqrt_eq]
    exact scanBy_zero_at_mem (euclDist2 t₂) s₂ t₂ h₂
      (fun q => Real.sqrt_nonneg _) (euclDist2_self t₂) (euclDist2_eq_zero t₂)
  · rw [find_closest_with_squared_eq]
    exact scanBy_zero_at_mem (sqDist2 t₂) s₂ t₂ h₂
      (sqDist2_nonneg t₂) (sqDist2_self t₂) (sqDist2_eq_zero t₂)
  · rw [find_closest_3d_with_sqrt_eq]
    exact scanBy_zero_at_mem (euclDist3 t₃) s₃ t₃ h₃
      (fun q => Real.sqrt_nonneg _) (euclDist3_self t₃) (euclDist3_eq_zero t₃)
  · rw [find_closest_3d_with_squared_eq]
    exact scanBy_zero_at_mem (sqDist3 t₃) s₃ t₃ h₃
      (sqDist3_nonneg t₃) (sqDist3_self t₃) (sqDist3_eq_zero t₃)
  · rw [find_closest_3d_with_manhattan_eq]
    exact scanBy_zero_at_mem (manhattanDist3 t₃) s₃ t₃ h₃
      (manhattanDist3_nonneg t₃) (manhattanDist3_self t₃) (manhattanDist3_eq_zero t₃)

/-- Witness for C8: target (500,500) with a point exactly at (500,500). -/
theorem target_in_set_zero_distance_witness :
    find_closest_with_sqrt [((500 : ℚ), (500 : ℚ))] ((500 : ℚ), (500 : ℚ))
        = (some ((500 : ℚ), (500 : ℚ)), ((0 : ℝ) : WithTop ℝ)) ∧
    find_closest_with_squared [((500 : ℚ), (500 : ℚ))] ((500 : ℚ), (500 : ℚ))
        = (some ((500 : ℚ), (500 : ℚ)), ((0 : ℚ) : WithTop ℚ)) ∧
    find_closest_3d_with_sqrt [((500 : ℚ), (500 : ℚ), (500 : ℚ))]
          ((500 : ℚ), (500 : ℚ), (500 : ℚ))
        = (some ((500 : ℚ), (500 : ℚ), (500 : ℚ)), ((0 : ℝ) : WithTop ℝ)) ∧
    find_closest_3d_with_squared [((500 : ℚ), (500 : ℚ), (500 : ℚ))]
          ((500 : ℚ), (500 : ℚ), (500 : ℚ))
        = (some ((500 : ℚ), (500 : ℚ), (500 : ℚ)), ((0 : ℚ) : WithTop ℚ)) ∧
    find_closest_3d_with_manhattan [((500 : ℚ), (500 : ℚ), (500 : ℚ))]
          ((500 : ℚ), (500 : ℚ), (500 : ℚ))
        = (some ((500 : ℚ), (500 : ℚ), (500 : ℚ)), ((0 : ℚ) : WithTop ℚ)) :=
  target_in_set_zero_distance _ _ _ _ (List.mem_singleton.mpr rfl)
    (List.mem_singleton.mpr rfl)

/-- C9: strategies do not mutate the point set or target: running any list of
strategies in sequence over the shared `(sources, target)` state leaves that
state unchanged and hands every strategy the identical original input, so the
results are exactly the strategies applied independently to the original
inputs (order-insensitive). -/
theorem strategies_leave_state_unchanged {P Res : Type}
    (fs : List (List P → P → Res)) (st : List P × P) :
    runSeq fs st = (fs.map (fun f => f st.1 st.2), st) := by
  induction fs with
  | nil => rfl
  | cons f fs ih => simp [runSeq, run_strategy, ih]

/-- C10: on an empty point set every strategy returns the `(None, inf)`
sentinel pair without error, and the data generators given a count `n ≤ 0`
produce an empty point set rather than failing. -/
theorem empty_set_and_nonpositive_count (t₂ : Point2) (t₃ : Point3)
    (coords₂ : ℕ → Point2) (coords₃ : ℕ → Point3) (n₂ n₃ : ℤ)
    (h₂ : n₂ ≤ 0) (h₃ : n₃ ≤ 0) :
    find_closest_with_sqrt [] t₂ = (none, (⊤ : WithTop ℝ)) ∧
    find_closest_with_squared [] t₂ = (none, (⊤ : WithTop ℚ)) ∧
    find_closest_3d_with_sqrt [] t₃ = (none, (⊤ : WithTop ℝ)) ∧
    find_closest_3d_with_squared [] t₃ = (none, (⊤ : WithTop ℚ)) ∧
    find_closest_3d_with_manhattan [] t₃ = (none, (⊤ : WithTop ℚ)) ∧
    (generate_test_data coords₂ n₂).1 = [] ∧
    (generate_3d_test_data coords₃ n₃).1 = [] := by
  refine ⟨rfl, rfl, rfl, rfl, rfl, ?_, ?_⟩
  · simp [generate_test_data, Int.toNat_of_nonpos h₂]
  · simp [generate_3d_test_data, Int.toNat_of_nonpos h₃]

/-- Witness for C10 at concrete inputs, with counts `-3` and `0`. -/
theorem empty_set_and_nonpositive_count_witness :
    find_closest_with_squared [] ((0 : ℚ), (0 : ℚ)) = (none, (⊤ : WithTop ℚ)) ∧
    (generate_test_data (fun _ => ((0 : ℚ), (0 : ℚ))) (-3)).1 = [] ∧
    (generate_3d_test_data (fun _ => ((0 : ℚ), (0 : ℚ), (0 : ℚ))) 0).1 = [] :=
  ⟨(empty_set_and_nonpositive_count ((0 : ℚ), (0 : ℚ)) ((0 : ℚ), (0 : ℚ), (0 : ℚ))
      (fun _ => ((0 : ℚ), (0 : ℚ))) (fun _ => ((0 : ℚ), (0 : ℚ), (0 : ℚ)))
      (-3) 0 (by norm_num) (by norm_num)).2.1,
    (empty_set_and_nonpositive_count ((0 : ℚ), (0 : ℚ)) ((0 : ℚ), (0 : ℚ), (0 : ℚ))
      (fun _ => ((0 : ℚ), (0 : ℚ))) (fun _ => ((0 : ℚ), (0 : ℚ), (0 : ℚ)))
      (-3) 0 (by norm_num) (by norm_num)).2.2.2.2.2.1,
    (empty_set_and_nonpositive_count ((0 : ℚ), (0 : ℚ)) ((0 : ℚ), (0 : ℚ), (0 : ℚ))
      (fun _ => ((0 : ℚ), (0 : ℚ))) (fun _ => ((0 : ℚ), (0 : ℚ), (0 : ℚ)))
      (-3) 0 (by norm_num) (by norm_num)).2.2.2.2.2.2⟩
